import Mathlib

/-!
Verification of the tic-tac-toe game server (Cloudflare Durable Objects app).

The repository has two server-side move surfaces:
* `src/do/GameManager.ts` — a Durable Object holding games keyed by id, with
  `createGame`, `applyMove`, `makeAIPlay`, `calculateWinner`, `onClose`;
* `src/lib/GameApi.ts` + `src/agents/Game.ts` + `src/agents/Lobby.ts` — the
  lobby/agent surface with `setup`, `makeAIMove`, `makeMove`, `deleteGame`
  and its own copy of `calculateWinner`.

Below, each TypeScript function is translated into an executable Lean
definition with the same name.  JavaScript `null` cells become `none`,
out-of-range array reads (JS `undefined`) are modelled by `jsIndex`
returning `none` at the outer `Option` layer, and thrown `Error`s become
`Except`/`Option` results.
-/

namespace TicTacToe

/-- A mark: the TypeScript `SymbolType` enum (`"X" | "O"`). -/
inductive Symb
  | X
  | O
deriving DecidableEq, Repr, Fintype

/-- The result type of `calculateWinner`: `SymbolType | "Draw"`; the JS
`undefined` case is the `none` of `Option Outcome`. -/
inductive Outcome
  | mark (s : Symb)
  | draw
deriving DecidableEq, Repr

/-- One board cell: `SymbolType | null`.  `none` is the JS `null`. -/
abbrev Cell := Option Symb

/-- `BoardType` / `Board`: an array of 9 cells. -/
abbrev Board := List Cell

/-- `new Array(9).fill(null)` — the shared `initBoard` template. -/
def initBoard : Board := List.replicate 9 none

/-- JS array indexing `b[i]` with a possibly-signed index: in range it
yields the cell (`some cell`), out of range it yields `undefined`,
modelled as the outer `none`. -/
def jsIndex (b : Board) (i : Int) : Option Cell :=
  if h : 0 ≤ i ∧ i.toNat < b.length then some (b.get ⟨i.toNat, h.2⟩) else none

/-- The 8 fixed winning triples, in the exact enumeration order of the
`lines` array in both copies of `calculateWinner` (rows, then columns,
then diagonals). -/
def lines : List (Nat × Nat × Nat) :=
  [(0, 1, 2), (3, 4, 5), (6, 7, 8),
   (0, 3, 6), (1, 4, 7), (2, 5, 8),
   (0, 4, 8), (2, 4, 6)]

/-- One iteration of the `for` loop body of `calculateWinner`:
`board[a] && board[a] === board[b] && board[a] === board[c]`.
JS truthiness of `board[a]` means the cell holds a mark. -/
def lineWin (b : Board) : Nat × Nat × Nat → Option Symb
  | (i, j, k) =>
    match b.getD i none with
    | some s => if b.getD j none = some s ∧ b.getD k none = some s then some s else none
    | none => none

/-- The `for` loop of `calculateWinner`: return the mark of the first
matching line, scanning `lines` in order. -/
def scanLines (b : Board) : List (Nat × Nat × Nat) → Option Symb
  | [] => none
  | l :: ls =>
    match lineWin b l with
    | some s => some s
    | none => scanLines b ls

/-- `calculateWinner(board)` (identical in `GameManager.ts` and
`GameApi.ts`): first matching line's mark; else `"Draw"` when
`board.every(Boolean)`; else `undefined`. -/
def calculateWinner (b : Board) : Option Outcome :=
  match scanLines b lines with
  | some s => some (.mark s)
  | none => if b.all (fun c => c.isSome) then some .draw else none

/-- The spec-side description of "triple `t` is all `M` and non-empty". -/
def tripleAll (b : Board) (M : Symb) (t : Nat × Nat × Nat) : Prop :=
  b.getD t.1 none = some M ∧ b.getD t.2.1 none = some M ∧ b.getD t.2.2 none = some M

/-- "some of the 8 fixed triples has all three cells equal to `M`". -/
def wins (b : Board) (M : Symb) : Prop :=
  ∃ t ∈ lines, tripleAll b M t

instance (b : Board) (M : Symb) (t : Nat × Nat × Nat) : Decidable (tripleAll b M t) := by
  unfold tripleAll; infer_instance

instance (b : Board) (M : Symb) : Decidable (wins b M) := by
  unfold wins; infer_instance

/-! ## GameManager (src/do/GameManager.ts)

The `Game` record of `src/types.ts` as used by `GameManager`:
`{ id, xPlayer, oPlayer, board, isXNext, winner?, updatedAt }`.
`updatedAt` (a JS `Date`) is modelled as a `Nat` timestamp supplied by the
caller of the mutating operations. -/

structure MGame where
  id : String
  xPlayer : String
  oPlayer : String
  board : Board
  isXNext : Bool
  winner : Option Outcome := none
  updatedAt : Nat := 0
deriving DecidableEq, Repr

/-- The distinct `Error` messages thrown by `GameManager.applyMove`. -/
inductive MErr
  | gameNotFound
  | notYourTurn
  | invalidPosition
  | cellOccupied
deriving DecidableEq, Repr

/-- `GameManager.createGame(params)`: fresh game, `oPlayer` is `"ai"`,
board is the all-`null` template, `isXNext = true`, no winner.  The
random UUID and `new Date()` are supplied as arguments. -/
def createGame (id playerId : String) (now : Nat) : MGame :=
  { id := id, xPlayer := playerId, oPlayer := "ai",
    board := initBoard, isXNext := true, winner := none, updatedAt := now }

/-- `GameManager.applyMove(gameId, move, playerId)`.  The storage lookup
`loadGame(gameId)` is modelled by passing the stored game (or `none`)
directly.  The checks appear in the source's order: missing game, the two
turn-ownership checks, position range, occupancy.  On success the cell is
set to the current turn's symbol, `isXNext` flips, `updatedAt` is
refreshed and `winner` is overwritten only when `calculateWinner` yields
a non-`undefined` result (`if (winner) game.winner = winner`). -/
def applyMove (gameInStore : Option MGame) (move : Int) (playerId : String)
    (now : Nat) : Except MErr MGame :=
  match gameInStore with
  | none => .error .gameNotFound
  | some game =>
    if game.isXNext ∧ ¬(game.xPlayer = playerId) then .error .notYourTurn
    else if ¬game.isXNext ∧ ¬(game.oPlayer = playerId) then .error .notYourTurn
    else if move < 0 ∨ 8 < move then .error .invalidPosition
    else if jsIndex game.board move ≠ some none then .error .cellOccupied
    else
      let newBoard := game.board.set move.toNat
        (some (if game.isXNext then Symb.X else Symb.O))
      .ok { game with
            board := newBoard,
            isXNext := !game.isXNext,
            updatedAt := now,
            winner :=
              match calculateWinner newBoard with
              | some o => some o
              | none => game.winner }

/-- JS `board.findIndex((square) => square === null)`, as `Option`
(the source checks `< 0` for the not-found case). -/
def findIndex (p : Cell → Bool) : Board → Option Nat
  | [] => none
  | c :: rest => if p c then some 0 else (findIndex p rest).map (· + 1)

/-- Result of the external AI move-decision collaborator
(`makeAIMove` from `TicTacToeExpert`, not part of the sources): either a
returned position or a thrown error. -/
inductive AIOutcome
  | move (pos : Int)
  | failure
deriving DecidableEq, Repr

/-- `Except` result collapsed the way `makeAIPlay`'s `try/catch` does:
any throw (from `applyMove` or the internal no-moves-available error)
becomes `undefined`. -/
def caught : Except MErr MGame → Option MGame
  | .ok g => some g
  | .error _ => none

/-- `GameManager.makeAIPlay(gameId)`.  Guards: game must exist, `oPlayer`
must be `"ai"`, it must be O's turn, and the game must have no winner.
Then the collaborator result is consulted: an out-of-range or occupied
returned position is replaced by the lowest-indexed empty cell (throwing
— hence returning `undefined` — when none exists); a collaborator
*failure* is caught by the surrounding `try/catch` and yields `undefined`
with no move applied at all. -/
def makeAIPlay (gameInStore : Option MGame) (ai : AIOutcome) (now : Nat) :
    Option MGame :=
  match gameInStore with
  | none => none
  | some game =>
    if ¬(game.oPlayer = "ai") ∨ game.isXNext then none
    else if game.winner.isSome then none
    else
      match ai with
      | .failure => none
      | .move aiMove =>
        if aiMove < 0 ∨ 8 < aiMove ∨ jsIndex game.board aiMove ≠ some none then
          match findIndex (fun c => c = none) game.board with
          | none => none
          | some fb => caught (applyMove (some game) (fb : Int) "ai" now)
        else caught (applyMove (some game) aiMove "ai" now)

/-- The per-manager stored games (`ctx.storage`, keys `game:<id>`). -/
abbrev GameStore := List (String × MGame)

/-- `GameManager.onClose(connection)`: the handler reads the connection
state and performs exactly one action — `connection.send` of a
`player_disconnected` message to the connection that is closing.  It
issues no storage operation, so the store passes through unchanged.  The
result pairs the store with the list of (recipient, message type) sends. -/
def onClose (store : GameStore) (connId : String) (connGameId : Option String) :
    GameStore × List (String × String) :=
  (store, [(connId, "player_disconnected")])

/-! ## GameAgent / GameApi / LobbyAgent
(src/agents/Game.ts, src/lib/GameApi.ts, src/agents/Lobby.ts) -/

/-- The `PlayerType` enum. -/
inductive PlayerKind
  | human
  | ai
deriving DecidableEq, Repr

/-- The `AILevel` enum. -/
inductive AILevel
  | beginner
  | intermediate
  | expert
deriving DecidableEq, Repr

/-- A `Player` record (`HumanPlayer | AIPlayer`); `level` is present only
on AI players. -/
structure LPlayer where
  name : String
  symbol : Symb
  kind : PlayerKind
  pending : Bool
  level : Option AILevel := none
deriving DecidableEq, Repr

/-- The `Players` record `{X: Player, O: Player}`. -/
structure LPlayers where
  X : LPlayer
  O : LPlayer
deriving DecidableEq, Repr

/-- `players[symbol]` lookup. -/
def LPlayers.get (ps : LPlayers) : Symb → LPlayer
  | .X => ps.X
  | .O => ps.O

/-- The `Game` record of the agent surface:
`{players, currentTurn, board, winner?}`. -/
structure LGame where
  players : LPlayers
  currentTurn : Symb
  board : Board
  winner : Option Outcome := none
deriving DecidableEq, Repr

/-- `GameState` of `src/agents/Game.ts` (`createdAt`/`updatedAt` ISO
strings modelled as `Nat` timestamps). -/
structure AgentState where
  slug : String
  waitingForPlayers : Bool
  inProgress : Bool
  createdAt : Nat := 0
  updatedAt : Nat := 0
  game : Option LGame := none
deriving DecidableEq, Repr

/-- `GameAgent.initialState`: waiting for players, no game yet. -/
def initialState : AgentState :=
  { slug := "", waitingForPlayers := true, inProgress := false,
    createdAt := 0, updatedAt := 0, game := none }

/-- `GameAgent.initialGame`: by default X is a pending human and O is a
pending Expert-level AI, `currentTurn = X`, all-`null` board, no winner. -/
def initialGame : LGame :=
  { players :=
      { X := { name := "pending", symbol := .X, kind := .human, pending := true },
        O := { name := "pending", symbol := .O, kind := .ai, pending := true,
               level := some .expert } },
    currentTurn := .X, board := initBoard, winner := none }

/-- `GameAgent.aiPlayer()`: the symbol controlled by an AI player,
checking X first, else `null`. -/
def aiPlayer (st : AgentState) : Option Symb :=
  match st.game with
  | none => none
  | some g =>
    if g.players.X.kind = .ai then some .X
    else if g.players.O.kind = .ai then some .O
    else none

/-- `GameAgent.isAIMove()`: false when there is no game or a winner;
otherwise whether `currentTurn` equals the AI player's symbol. -/
def isAIMove (st : AgentState) : Bool :=
  match st.game with
  | none => false
  | some g =>
    if g.winner.isSome then false
    else decide (some g.currentTurn = aiPlayer st)

/-- `GameAgent.makeAIMove(playerSymbol)`: throws when the addressed
player is not an AI; otherwise asks the bot for a position on the current
board.  The bot (`BotExpert`, an external inference call) is a parameter.
Note the return value is only the chosen position — the agent state is
not modified by this method. -/
def makeAIMove (st : AgentState) (playerSymbol : Symb) (bot : Board → Int) :
    Except String Int :=
  match st.game with
  | none => .error "no game"
  | some g =>
    if ¬((g.players.get playerSymbol).kind = .ai) then
      .error "Cannot make AI move for human player"
    else .ok (bot g.board)

/-- `GameAgent.setup({slug})`: replaces the state with the initial
template plus the fresh `initialGame` and the given slug, then, when
`isAIMove()` holds on that state, invokes `makeAIMove` — whose result is
discarded.  The returned pair is the agent state after `setup` together
with the discarded AI computation (if one was triggered). -/
def setup (st : AgentState) (slug : String) (bot : Board → Int) :
    AgentState × Option (Except String Int) :=
  let next : AgentState := { initialState with game := some initialGame, slug := slug }
  if isAIMove next then
    match aiPlayer next with
    | some sym => (next, some (makeAIMove next sym bot))
    | none => (next, none)
  else (next, none)

/-- The error cases surfaced by `GameApi.makeMove`. -/
inductive ApiErr
  | gameNotFound
  | invalidMove
  | internalError
deriving DecidableEq, Repr

/-- The opponent symbol computed in `makeMove`. -/
def flipSym : Symb → Symb
  | .X => .O
  | .O => .X

/-- JS array element assignment `b[i] = v` as used on `aiBoard[aiMove]`:
in range it overwrites; the out-of-range case (which in JS would extend
the array) is modelled as a no-op — no theorem below exercises it. -/
def jsSet (b : Board) (i : Int) (v : Cell) : Board :=
  if 0 ≤ i ∧ i.toNat < b.length then b.set i.toNat v else b

/-- `GameApi.makeMove({slug, position, playerSymbol})` on the game's
agent state.  Checks only that the game exists and that
`board[position] === null` (an out-of-range read gives `undefined`,
which also fails that check).  It then sets the caller-supplied symbol at
`position`, recomputes `winner`, and — when the opponent slot is an AI
player and there is no winner — obtains an AI position via
`GameAgent.makeAIMove` and overwrites that cell with the opponent symbol.
It never reads or updates `currentTurn` and takes no caller identity. -/
def makeMove (st : AgentState) (pos : Int) (playerSymbol : Symb)
    (bot : Board → Int) (now : Nat) : Except ApiErr AgentState :=
  match st.game with
  | none => .error .gameNotFound
  | some game =>
    if jsIndex game.board pos ≠ some none then .error .invalidMove
    else
      let newBoard := game.board.set pos.toNat (some playerSymbol)
      let winner := calculateWinner newBoard
      let st1 : AgentState :=
        { st with game := some { game with board := newBoard, winner := winner },
                  updatedAt := now }
      if (game.players.get (flipSym playerSymbol)).kind = .ai ∧ winner = none then
        match makeAIMove st1 (flipSym playerSymbol) bot with
        | .error _ => .error .internalError
        | .ok aiMove =>
          let aiBoard := jsSet newBoard aiMove (some (flipSym playerSymbol))
          .ok { st1 with
                game := some { game with
                               board := aiBoard,
                               winner := calculateWinner aiBoard },
                updatedAt := now }
      else .ok st1

/-- `LobbyState` plus the lobby's durable pieces: the SQL `games` table
(`directory`, a list of slugs) and the set of live game Durable Objects
(`liveGames`).  `gamesSeekingPlayers` / `gamesInProgress` are the two
bounded summary lists. -/
structure Lobby where
  gamesSeekingPlayers : List AgentState
  gamesInProgress : List AgentState
  directory : List String
  liveGames : List String
deriving DecidableEq, Repr

/-- The error thrown by `LobbyAgent.deleteGame`. -/
inductive LobbyErr
  | missingSlug
deriving DecidableEq, Repr

/-- `LobbyAgent.deleteGame(slug)`: throws when the slug is empty
(JS falsiness of a string); otherwise `getAgentByName(...).delete()`
destroys the game instance (destroying an absent or already-destroyed
instance is a platform no-op and does not throw), the SQL row is deleted,
and both summary lists are filtered by slug. -/
def deleteGame (lb : Lobby) (slug : String) : Except LobbyErr Lobby :=
  if slug = "" then .error .missingSlug
  else
    .ok { gamesSeekingPlayers := lb.gamesSeekingPlayers.filter (fun g => g.slug ≠ slug),
          gamesInProgress := lb.gamesInProgress.filter (fun g => g.slug ≠ slug),
          directory := lb.directory.filter (fun s => s ≠ slug),
          liveGames := lb.liveGames.filter (fun s => s ≠ slug) }

/-! ## Helper lemmas -/

theorem lineWin_eq_some_iff (b : Board) (t : Nat × Nat × Nat) (M : Symb) :
    lineWin b t = some M ↔ tripleAll b M t := by
  obtain ⟨i, j, k⟩ := t
  simp only [lineWin, tripleAll]
  cases h : b.getD i none with
  | none =>
    show (none : Option Symb) = some M ↔ _
    simp
  | some s =>
    show (if b.getD j none = some s ∧ b.getD k none = some s then some s else none)
        = some M ↔ some s = some M ∧ b.getD j none = some M ∧ b.getD k none = some M
    by_cases hjk : b.getD j none = some s ∧ b.getD k none = some s
    · rw [if_pos hjk]
      constructor
      · intro h'; injection h' with h'; subst h'; exact ⟨rfl, hjk.1, hjk.2⟩
      · rintro ⟨h1, _, _⟩; injection h1 with h1; rw [h1]
    · rw [if_neg hjk]
      constructor
      · intro hc; cases hc
      · rintro ⟨h1, h2, h3⟩; injection h1 with h1; subst h1
        exact absurd ⟨h2, h3⟩ hjk

theorem scanLines_eq_some (b : Board) :
    ∀ ls M, scanLines b ls = some M → ∃ l ∈ ls, lineWin b l = some M := by
  intro ls
  induction ls with
  | nil => intro M h; simp [scanLines] at h
  | cons l ls ih =>
    intro M h
    unfold scanLines at h
    cases hl : lineWin b l with
    | some s =>
      rw [hl] at h
      exact ⟨l, by simp, hl.trans (by injection h with h; rw [h])⟩
    | none =>
      rw [hl] at h
      obtain ⟨l', hl', hw⟩ := ih M h
      exact ⟨l', by simp [hl'], hw⟩

theorem scanLines_isSome_of_mem (b : Board) :
    ∀ ls l M, l ∈ ls → lineWin b l = some M → ∃ M', scanLines b ls = some M' := by
  intro ls
  induction ls with
  | nil => intro l M h; simp at h
  | cons hd tl ih =>
    intro l M hmem hw
    unfold scanLines
    cases hl : lineWin b hd with
    | some s => exact ⟨s, rfl⟩
    | none =>
      rcases List.mem_cons.mp hmem with rfl | hmem'
      · rw [hl] at hw; cases hw
      · exact ih l M hmem' hw

theorem scanLines_eq_none_iff (b : Board) :
    ∀ ls, scanLines b ls = none ↔ ∀ l ∈ ls, lineWin b l = none := by
  intro ls
  induction ls with
  | nil => simp [scanLines]
  | cons hd tl ih =>
    unfold scanLines
    cases hl : lineWin b hd with
    | some s => simp [hl]
    | none => simpa [hl] using ih

theorem wins_iff_lineWin (b : Board) (M : Symb) :
    wins b M ↔ ∃ l ∈ lines, lineWin b l = some M := by
  unfold wins
  constructor
  · rintro ⟨t, ht, hall⟩
    exact ⟨t, ht, (lineWin_eq_some_iff b t M).mpr hall⟩
  · rintro ⟨t, ht, hw⟩
    exact ⟨t, ht, (lineWin_eq_some_iff b t M).mp hw⟩

theorem calculateWinner_mark_sound (b : Board) (M : Symb)
    (h : calculateWinner b = some (.mark M)) : wins b M := by
  unfold calculateWinner at h
  cases hs : scanLines b lines with
  | some s =>
    rw [hs] at h
    injection h with h
    injection h with h
    rw [← h]
    exact (wins_iff_lineWin b s).mpr (scanLines_eq_some b lines s hs)
  | none =>
    rw [hs] at h
    by_cases hall : b.all (fun c => c.isSome) = true
    · rw [if_pos hall] at h; simp at h
    · rw [if_neg hall] at h; simp at h

theorem calculateWinner_mark_of_wins (b : Board) (M : Symb) (h : wins b M) :
    ∃ M', calculateWinner b = some (.mark M') := by
  obtain ⟨l, hl, hw⟩ := (wins_iff_lineWin b M).mp h
  obtain ⟨M', hM'⟩ := scanLines_isSome_of_mem b lines l M hl hw
  exact ⟨M', by unfold calculateWinner; rw [hM']⟩

theorem calculateWinner_draw_iff (b : Board) :
    calculateWinner b = some .draw ↔
      (∀ M, ¬wins b M) ∧ b.all (fun c => c.isSome) = true := by
  unfold calculateWinner
  cases hs : scanLines b lines with
  | some s =>
    constructor
    · intro h; cases h
    · rintro ⟨hno, -⟩
      exact absurd ((wins_iff_lineWin b s).mpr (scanLines_eq_some b lines s hs)) (hno s)
  | none =>
    have hno : ∀ M, ¬wins b M := by
      intro M hM
      obtain ⟨l, hl, hw⟩ := (wins_iff_lineWin b M).mp hM
      rw [(scanLines_eq_none_iff b lines).mp hs l hl] at hw
      cases hw
    by_cases hall : b.all (fun c => c.isSome) = true
    · simp [hall, hno]
    · simp [hall, hno]

theorem calculateWinner_none_iff (b : Board) :
    calculateWinner b = none ↔
      (∀ M, ¬wins b M) ∧ ¬(b.all (fun c => c.isSome) = true) := by
  unfold calculateWinner
  cases hs : scanLines b lines with
  | some s =>
    constructor
    · intro h; cases h
    · rintro ⟨hno, -⟩
      exact absurd ((wins_iff_lineWin b s).mpr (scanLines_eq_some b lines s hs)) (hno s)
  | none =>
    have hno : ∀ M, ¬wins b M := by
      intro M hM
      obtain ⟨l, hl, hw⟩ := (wins_iff_lineWin b M).mp hM
      rw [(scanLines_eq_none_iff b lines).mp hs l hl] at hw
      cases hw
    by_cases hall : b.all (fun c => c.isSome) = true
    · simp [hall, hno]
    · simp [hall, hno]

/-- On a 9-cell board, `board.every(Boolean)` says exactly that all 9
cells are non-empty. -/
theorem all_isSome_iff (b : Board) (hlen : b.length = 9) :
    b.all (fun c => c.isSome) = true ↔ ∀ i < 9, b.getD i none ≠ none := by
  rw [List.all_eq_true]
  constructor
  · intro h i hi
    have hib : i < b.length := by omega
    rw [List.getD_eq_getElem b none hib]
    have := h b[i] (List.getElem_mem hib)
    simp only [Option.isSome_iff_ne_none] at this
    exact this
  · intro h c hc
    obtain ⟨i, hi, rfl⟩ := List.mem_iff_getElem.mp hc
    have h9 : i < 9 := by omega
    have := h i h9
    rw [List.getD_eq_getElem b none hi] at this
    simpa [Option.isSome_iff_ne_none] using this

/-- The spec-side "the acting player owns the current turn": the player
record whose symbol equals the current turn has identity `pid`. -/
def turnOK (g : MGame) (pid : String) : Prop :=
  if g.isXNext then g.xPlayer = pid else g.oPlayer = pid

instance (g : MGame) (pid : String) : Decidable (turnOK g pid) := by
  unfold turnOK; infer_instance

/-- The board produced by a successful `applyMove`. -/
def movedBoard (g : MGame) (move : Int) : Board :=
  g.board.set move.toNat (some (if g.isXNext then Symb.X else Symb.O))

/-- The game produced by a successful `applyMove`. -/
def movedGame (g : MGame) (move : Int) (now : Nat) : MGame :=
  { g with
    board := movedBoard g move,
    isXNext := !g.isXNext,
    updatedAt := now,
    winner :=
      match calculateWinner (movedBoard g move) with
      | some o => some o
      | none => g.winner }

theorem applyMove_error_notYourTurn_iff (g : MGame) (move : Int) (pid : String)
    (now : Nat) :
    applyMove (some g) move pid now = .error .notYourTurn ↔ ¬turnOK g pid := by
  unfold applyMove turnOK
  cases hX : g.isXNext <;>
    · simp only [hX]
      split_ifs <;> simp_all

theorem applyMove_error_invalidPosition_iff (g : MGame) (move : Int) (pid : String)
    (now : Nat) :
    applyMove (some g) move pid now = .error .invalidPosition ↔
      turnOK g pid ∧ (move < 0 ∨ 8 < move) := by
  unfold applyMove turnOK
  cases hX : g.isXNext <;>
    · simp only [hX]
      split_ifs <;> simp_all

theorem applyMove_error_cellOccupied_iff (g : MGame) (move : Int) (pid : String)
    (now : Nat) :
    applyMove (some g) move pid now = .error .cellOccupied ↔
      turnOK g pid ∧ ¬(move < 0 ∨ 8 < move) ∧ jsIndex g.board move ≠ some none := by
  unfold applyMove turnOK
  cases hX : g.isXNext <;>
    · simp only [hX]
      split_ifs <;> simp_all

theorem applyMove_ok_iff (g : MGame) (move : Int) (pid : String) (now : Nat)
    (g' : MGame) :
    applyMove (some g) move pid now = .ok g' ↔
      turnOK g pid ∧ ¬(move < 0 ∨ 8 < move) ∧ jsIndex g.board move = some none ∧
        g' = movedGame g move now := by
  unfold applyMove turnOK movedGame movedBoard
  cases hX : g.isXNext <;>
    · simp only [hX]
      split_ifs <;> simp_all <;> exact eq_comm

theorem jsIndex_some (b : Board) (move : Int) (c : Cell)
    (h : jsIndex b move = some c) :
    0 ≤ move ∧ ∃ hlt : move.toNat < b.length, b.get ⟨move.toNat, hlt⟩ = c := by
  unfold jsIndex at h
  split at h
  · next hcond => exact ⟨hcond.1, hcond.2, by injection h⟩
  · cases h

theorem jsIndex_set_self (b : Board) (move : Int) (v : Cell)
    (h0 : 0 ≤ move) (hlt : move.toNat < b.length) :
    jsIndex (b.set move.toNat v) move = some v := by
  unfold jsIndex
  have hlen : (b.set move.toNat v).length = b.length := List.length_set b _ _
  rw [dif_pos ⟨h0, by omega⟩]
  congr 1
  rw [List.get_eq_getElem]
  exact List.getElem_set_self _

/-- Setting an empty cell to a mark changes the board. -/
theorem set_ne_of_get_none (b : Board) (i : Nat) (hlt : i < b.length)
    (hnone : b.get ⟨i, hlt⟩ = none) (s : Symb) : b.set i (some s) ≠ b := by
  intro heq
  have h1 : (b.set i (some s)).get ⟨i, by simpa using hlt⟩ = some s := by
    rw [List.get_eq_getElem]
    exact List.getElem_set_self _
  rw [List.get_of_eq heq] at h1
  rw [hnone] at h1
  cases h1

/-- The number of non-empty cells. -/
def filledCount (b : Board) : Nat := (b.filter (fun c => c.isSome)).length

theorem filledCount_set (b : Board) :
    ∀ (i : Nat) (hi : i < b.length), b.get ⟨i, hi⟩ = none →
      ∀ s : Symb, filledCount (b.set i (some s)) = filledCount b + 1 := by
  induction b with
  | nil => intro i hi; simp at hi
  | cons c rest ih =>
    intro i hi hnone s
    cases i with
    | zero =>
      have hc : c = none := hnone
      subst hc
      simp [filledCount, List.filter]
    | succ n =>
      have hn : n < rest.length := by simpa using hi
      have hrest : rest.get ⟨n, hn⟩ = none := hnone
      show filledCount (c :: rest.set n (some s)) = filledCount (c :: rest) + 1
      cases hc : c.isSome <;>
        simp [filledCount, List.filter_cons, hc] <;>
        simpa [filledCount] using ih n hn hrest s

/-- Reduction of `GameAgent.makeAIMove` when the addressed player slot is
an AI player: the bot is consulted on the current board. -/
theorem makeAIMove_kind_ai (st : AgentState) (g : LGame) (sym : Symb)
    (bot : Board → Int) (h : st.game = some g)
    (hk : (g.players.get sym).kind = PlayerKind.ai) :
    makeAIMove st sym bot = .ok (bot g.board) := by
  unfold makeAIMove
  rw [h]
  show (if ¬((g.players.get sym).kind = PlayerKind.ai) then
      Except.error "Cannot make AI move for human player"
    else Except.ok (bot g.board)) = Except.ok (bot g.board)
  rw [if_neg (by rw [hk]; simp)]

/-- Game states reachable in a `GameManager` from a fresh game through
accepted `applyMove` calls. -/
inductive ReachableM : MGame → Prop
  | created (id playerId : String) (now : Nat) :
      ReachableM (createGame id playerId now)
  | moved {g g' : MGame} (move : Int) (playerId : String) (now : Nat) :
      ReachableM g → applyMove (some g) move playerId now = .ok g' →
      ReachableM g'

/-! ## Claim C3 — the winner evaluator -/

/-- A board on which triples of both marks are complete: X holds row
0-1-2 and O holds row 3-4-5.  Not reachable by alternating play, but the
claim quantifies over every 9-cell board. -/
def doubleWinBoard : Board :=
  [some .X, some .X, some .X, some .O, some .O, some .O, none, none, none]

/-- C3 counterexample: on `doubleWinBoard` some fixed triple is all `O`,
yet `calculateWinner` does not return `O` (it returns `X`, the mark of
the earlier-enumerated triple), so "returns the mark M exactly when some
triple has all three cells equal to M" fails in the M = O direction. -/
theorem calculateWinner_not_iff_someTriple :
    wins doubleWinBoard Symb.O ∧
      calculateWinner doubleWinBoard ≠ some (Outcome.mark Symb.O) ∧
      calculateWinner doubleWinBoard = some (Outcome.mark Symb.X) := by
  refine ⟨?_, by decide, by decide⟩
  exact ⟨(3, 4, 5), by decide, by decide⟩

/-- C3 amended: `calculateWinner` is sound for triples (a returned mark
always has a full triple), complete (a full triple forces some mark to be
returned), and when at most one mark owns a full triple — true of every
board arising from alternating play — the returned mark is characterized
exactly by "some triple is all M".  `Draw` is returned exactly when all 9
cells are filled and no triple matched; `undefined` exactly when the
board is not full and no triple matched. -/
theorem calculateWinner_spec (b : Board) (M : Symb) :
    (calculateWinner b = some (.mark M) → wins b M) ∧
    (wins b M → ∃ M', calculateWinner b = some (.mark M')) ∧
    ((∀ M1 M2, wins b M1 → wins b M2 → M1 = M2) →
      (calculateWinner b = some (.mark M) ↔ wins b M)) ∧
    (b.length = 9 →
      (calculateWinner b = some .draw ↔
        (∀ i < 9, b.getD i none ≠ none) ∧ ∀ M', ¬wins b M')) ∧
    (b.length = 9 →
      (calculateWinner b = none ↔
        ¬(∀ i < 9, b.getD i none ≠ none) ∧ ∀ M', ¬wins b M')) := by
  refine ⟨calculateWinner_mark_sound b M, calculateWinner_mark_of_wins b M,
    ?_, ?_, ?_⟩
  · intro huniq
    refine ⟨calculateWinner_mark_sound b M, ?_⟩
    intro hw
    obtain ⟨M', hM'⟩ := calculateWinner_mark_of_wins b M hw
    rw [huniq M' M (calculateWinner_mark_sound b M' hM') hw] at hM'
    exact hM'
  · intro hlen
    rw [calculateWinner_draw_iff, ← all_isSome_iff b hlen]
    constructor
    · rintro ⟨h1, h2⟩; exact ⟨h2, fun M' => h1 M'⟩
    · rintro ⟨h1, h2⟩; exact ⟨fun M' => h2 M', h1⟩
  · intro hlen
    rw [calculateWinner_none_iff, ← all_isSome_iff b hlen]
    constructor
    · rintro ⟨h1, h2⟩; exact ⟨h2, fun M' => h1 M'⟩
    · rintro ⟨h1, h2⟩; exact ⟨fun M' => h2 M', h1⟩

/-- A reachable full board with an X win on the diagonal. -/
def xWinBoard : Board :=
  [some .X, some .O, some .O, none, some .X, none, none, none, some .X]

/-- A full drawn board. -/
def drawBoard : Board :=
  [some .X, some .O, some .X, some .X, some .O, some .O, some .O, some .X, some .X]

/-- Witness for `calculateWinner_spec` at concrete boards: the unique-win
characterization at `xWinBoard` and the draw characterization at
`drawBoard`. -/
theorem calculateWinner_spec_w :
    calculateWinner xWinBoard = some (Outcome.mark Symb.X) ∧
      calculateWinner drawBoard = some Outcome.draw :=
  ⟨((calculateWinner_spec xWinBoard Symb.X).2.2.1 (by decide)).mpr (by decide),
   ((calculateWinner_spec drawBoard Symb.X).2.2.2.1 (by decide)).mpr
     ⟨by decide, by decide⟩⟩

/-! ## Claim C1 — moves after the game is decided -/

/-- A finished game: X has won on row 0-1-2, five cells are filled, it is
O's ("ai"'s) turn by parity, and `winner` is recorded. -/
def finishedGame : MGame :=
  { id := "g", xPlayer := "p", oPlayer := "ai",
    board := [some .X, some .X, some .X, some .O, some .O, none, none, none, none],
    isXNext := false, winner := some (.mark .X), updatedAt := 0 }

/-- The game `applyMove` produces from `finishedGame` at position 5. -/
def finishedGameMoved : MGame :=
  { id := "g", xPlayer := "p", oPlayer := "ai",
    board := [some .X, some .X, some .X, some .O, some .O, some .O, none, none, none],
    isXNext := true, winner := some (.mark .X), updatedAt := 7 }

/-- C1 counterexample: `finishedGame` has `winner = X`, yet
`applyMove(5, "ai")` does not fail with any error — it succeeds and
mutates the board.  There is no game-over check in either move surface. -/
theorem applyMove_succeeds_after_win :
    finishedGame.winner = some (Outcome.mark Symb.X) ∧
      applyMove (some finishedGame) 5 "ai" 7 = .ok finishedGameMoved ∧
      finishedGameMoved.board ≠ finishedGame.board := by
  refine ⟨rfl, rfl, by decide⟩

/-- C1 amended: neither `GameManager.applyMove` nor the lobby-surface
`makeMove` checks `winner`.  On a game whose winner is already set, a
move that passes the remaining validation (turn ownership, range and
occupancy for `applyMove`; mere cell emptiness for `makeMove`) succeeds
and changes the board, exactly as on a live game. -/
theorem move_surfaces_have_no_gameOver_check :
    (∀ (g : MGame) (move : Int) (pid : String) (now : Nat) (w : Outcome),
      g.winner = some w → turnOK g pid → ¬(move < 0 ∨ 8 < move) →
      jsIndex g.board move = some none →
      ∃ g', applyMove (some g) move pid now = .ok g' ∧ g'.board ≠ g.board) ∧
    (∀ (st : AgentState) (game : LGame) (pos : Int) (sym : Symb)
       (bot : Board → Int) (now : Nat) (w : Outcome),
      st.game = some game → game.winner = some w →
      jsIndex game.board pos = some none →
      ∃ st', makeMove st pos sym bot now = .ok st') := by
  constructor
  · intro g move pid now w hw ht hr he
    refine ⟨movedGame g move now,
      (applyMove_ok_iff g move pid now _).mpr ⟨ht, hr, he, rfl⟩, ?_⟩
    obtain ⟨h0, hlt, hget⟩ := jsIndex_some g.board move none he
    show movedBoard g move ≠ g.board
    exact set_ne_of_get_none g.board move.toNat hlt hget _
  · intro st game pos sym bot now w hgame hw hpos
    obtain ⟨sl, wf, ip, ca, ua, og⟩ := st
    simp only at hgame
    subst hgame
    simp only [makeMove]
    rw [if_neg (by rw [hpos]; simp)]
    by_cases hai :
        (game.players.get (flipSym sym)).kind = PlayerKind.ai ∧
          calculateWinner (game.board.set pos.toNat (some sym)) = none
    · rw [if_pos hai]
      rw [makeAIMove_kind_ai _ _ _ bot rfl (by exact hai.1)]
      exact ⟨_, rfl⟩
    · rw [if_neg hai]
      exact ⟨_, rfl⟩

/-- A lobby-surface game state whose game is already won by X. -/
def finishedAgentState : AgentState :=
  { slug := "s", waitingForPlayers := false, inProgress := true,
    createdAt := 0, updatedAt := 0,
    game := some
      { players :=
          { X := { name := "a", symbol := .X, kind := .human, pending := false },
            O := { name := "b", symbol := .O, kind := .human, pending := false } },
        currentTurn := .O,
        board := [some .X, some .X, some .X, some .O, some .O, none, none, none, none],
        winner := some (.mark .X) } }

/-- Witness for `move_surfaces_have_no_gameOver_check` at `finishedGame`
and `finishedAgentState`. -/
theorem move_surfaces_have_no_gameOver_check_w :
    (∃ g', applyMove (some finishedGame) 5 "ai" 7 = .ok g' ∧
      g'.board ≠ finishedGame.board) ∧
    (∃ st', makeMove finishedAgentState 5 Symb.O (fun _ => 0) 3 = .ok st') := by
  constructor
  · exact move_surfaces_have_no_gameOver_check.1 finishedGame 5 "ai" 7
      (.mark .X) rfl (by decide) (by decide) (by decide)
  · exact move_surfaces_have_no_gameOver_check.2 finishedAgentState
      ((finishedAgentState.game).get (by decide)) 5 Symb.O (fun _ => 0) 3
      (.mark .X) (by decide) (by decide) (by decide)

/-! ## Claim C2 — the order of applyMove's validations -/

/-- The game after X ("p") has played position 0 in a fresh game. -/
def afterFirstMove : MGame :=
  { id := "g", xPlayer := "p", oPlayer := "ai",
    board := [some .X, none, none, none, none, none, none, none, none],
    isXNext := false, winner := none, updatedAt := 1 }

/-- C2 counterexample.  First part: in a fresh (not won) game, a move by
a non-player at the out-of-range position 99 fails with `NotYourTurn`,
not `InvalidPosition` — so the turn check runs first, not last as the
claim orders the validations.  Second part: applying the same
`(position, actor)` pair `(0, "p")` twice gives `NotYourTurn` on the
second call (the turn has flipped and the turn check fires before the
occupancy check), not the `CellOccupied` the claim promises. -/
theorem applyMove_order_counterexample :
    applyMove (some (createGame "g" "p" 0)) 99 "zz" 1 = .error .notYourTurn ∧
      MErr.notYourTurn ≠ MErr.invalidPosition ∧
      applyMove (some (createGame "g" "p" 0)) 0 "p" 1 = .ok afterFirstMove ∧
      applyMove (some afterFirstMove) 0 "p" 2 = .error .notYourTurn ∧
      MErr.notYourTurn ≠ MErr.cellOccupied :=
  ⟨rfl, by decide, rfl, rfl, by decide⟩

/-- C2 amended: on an existing game, `applyMove` validates in the order
turn ownership (`NotYourTurn`), then position range (`InvalidPosition`),
then occupancy (`CellOccupied`); there is no game-over check at all, and
the error reported is the first of these three checks that fails.
Re-applying an accepted `(position, actor)` pair is still never a silent
no-op: the second call fails, with `NotYourTurn` or `CellOccupied`. -/
theorem applyMove_validation_order (g : MGame) (move : Int) (pid : String)
    (now : Nat) :
    (applyMove (some g) move pid now = .error .notYourTurn ↔ ¬turnOK g pid) ∧
    (applyMove (some g) move pid now = .error .invalidPosition ↔
      turnOK g pid ∧ (move < 0 ∨ 8 < move)) ∧
    (applyMove (some g) move pid now = .error .cellOccupied ↔
      turnOK g pid ∧ ¬(move < 0 ∨ 8 < move) ∧ jsIndex g.board move ≠ some none) ∧
    applyMove (some g) move pid now ≠ .error .gameNotFound ∧
    (∀ (g' : MGame) (now' : Nat),
      applyMove (some g) move pid now = .ok g' →
      ∃ e, applyMove (some g') move pid now' = .error e ∧
        (e = .notYourTurn ∨ e = .cellOccupied)) := by
  refine ⟨applyMove_error_notYourTurn_iff g move pid now,
    applyMove_error_invalidPosition_iff g move pid now,
    applyMove_error_cellOccupied_iff g move pid now, ?_, ?_⟩
  · unfold applyMove
    cases hX : g.isXNext <;>
      · simp only [hX]
        split_ifs <;> simp
  · intro g' now' hok
    obtain ⟨ht, hr, he, rfl⟩ := (applyMove_ok_iff g move pid now g').mp hok
    obtain ⟨h0, hlt, -⟩ := jsIndex_some g.board move none he
    by_cases ht' : turnOK (movedGame g move now) pid
    · refine ⟨.cellOccupied,
        (applyMove_error_cellOccupied_iff _ move pid now').mpr ⟨ht', hr, ?_⟩,
        Or.inr rfl⟩
      show jsIndex (movedBoard g move) move ≠ some none
      unfold movedBoard
      rw [jsIndex_set_self g.board move _ h0 hlt]
      simp
    · exact ⟨.notYourTurn,
        (applyMove_error_notYourTurn_iff _ move pid now').mpr ht', Or.inl rfl⟩

/-- Witness for `applyMove_validation_order`: concrete invocations of
each error characterization and of the second-application clause. -/
theorem applyMove_validation_order_w :
    applyMove (some (createGame "g2" "p" 0)) 9 "p" 1 = .error .invalidPosition ∧
      ∃ e, applyMove (some afterFirstMove) 0 "p" 2 = .error e ∧
        (e = MErr.notYourTurn ∨ e = MErr.cellOccupied) :=
  ⟨((applyMove_validation_order (createGame "g2" "p" 0) 9 "p" 1).2.1).mpr
      ⟨by decide, by decide⟩,
   (applyMove_validation_order (createGame "g" "p" 0) 0 "p" 1).2.2.2.2
      afterFirstMove 2 rfl⟩

/-! ## Claim C4 — turn parity -/

/-- C4 amended (GameManager half): in every game reachable from
`createGame` through accepted `applyMove` calls, `isXNext` (X owns the
turn) holds exactly when the number of non-empty cells is even.  The
lobby-surface `makeMove` half of the claim is false — see
`makeMove_breaks_turn_parity`. -/
theorem reachable_turn_parity (g : MGame) (h : ReachableM g) :
    g.isXNext = decide (filledCount g.board % 2 = 0) := by
  induction h with
  | created id playerId now =>
    show true = decide (filledCount initBoard % 2 = 0)
    decide
  | moved move playerId now hr hok ih =>
    next g g' =>
    obtain ⟨ht, hr', he, rfl⟩ := (applyMove_ok_iff g move playerId now g').mp hok
    obtain ⟨h0, hlt, hget⟩ := jsIndex_some g.board move none he
    show (!g.isXNext) = decide (filledCount (movedBoard g move) % 2 = 0)
    unfold movedBoard
    rw [filledCount_set g.board move.toNat hlt hget _]
    rw [ih]
    by_cases hp : filledCount g.board % 2 = 0
    · have h1 : ¬((filledCount g.board + 1) % 2 = 0) := by omega
      simp [hp, h1]
    · have h1 : (filledCount g.board + 1) % 2 = 0 := by omega
      simp [hp, h1]

/-- Witness for `reachable_turn_parity`: one accepted move deep. -/
theorem reachable_turn_parity_w :
    afterFirstMove.isXNext = decide (filledCount afterFirstMove.board % 2 = 0) :=
  reachable_turn_parity afterFirstMove
    (ReachableM.moved 0 "p" 1 (ReachableM.created "g" "p" 0) rfl)

/-- Two bound human players. -/
def freshHumanPlayers : LPlayers :=
  { X := { name := "a", symbol := .X, kind := .human, pending := false },
    O := { name := "b", symbol := .O, kind := .human, pending := false } }

/-- A fresh human-vs-human lobby game (both slots bound). -/
def freshHumanState : AgentState :=
  { slug := "s", waitingForPlayers := false, inProgress := true,
    createdAt := 0, updatedAt := 0,
    game := some
      { players := freshHumanPlayers,
        currentTurn := .X, board := initBoard, winner := none } }

/-- The state `makeMove` produces from `freshHumanState` for X at 0. -/
def freshHumanStateMoved : AgentState :=
  { slug := "s", waitingForPlayers := false, inProgress := true,
    createdAt := 0, updatedAt := 5,
    game := some
      { players := freshHumanPlayers,
        currentTurn := .X,
        board := [some .X, none, none, none, none, none, none, none, none],
        winner := none } }

/-- C4 counterexample: the lobby-surface `makeMove` path does not
preserve the correspondence.  Starting from a fresh game
(`currentTurn = X`, 0 filled cells), one accepted `makeMove` leaves a
state with 1 (odd) filled cell whose `currentTurn` is still `X` — the
claim requires `O` there.  `makeMove` never updates `currentTurn`. -/
theorem makeMove_breaks_turn_parity :
    makeMove freshHumanState 0 Symb.X (fun _ => 0) 5 = .ok freshHumanStateMoved ∧
      ∃ g', freshHumanStateMoved.game = some g' ∧
        g'.currentTurn = Symb.X ∧ filledCount g'.board = 1 :=
  ⟨rfl, ⟨_, rfl, rfl, by decide⟩⟩

/-! ## Claim C5 — setup -/

/-- C5 amended: `setup` replaces the state with the fixed default
template — it takes no player configuration; X is always a pending human
and O a pending Expert AI — with an all-empty board and `currentTurn = X`.
Because X is human by default, `isAIMove` is false on the state `setup`
installs, so the AI-move call inside `setup` is never triggered; and that
call (`makeAIMove`) only returns a position without touching the state
anyway.  Hence the game state returned by `setup` always has an all-empty
board: a game never opens "one move deep". -/
theorem setup_spec (st : AgentState) (slug : String) (bot : Board → Int) :
    (setup st slug bot).1 =
        { initialState with game := some initialGame, slug := slug } ∧
      (setup st slug bot).2 = none ∧
      initialGame.board = initBoard ∧
      initialGame.currentTurn = Symb.X ∧
      initialGame.players.X.kind = PlayerKind.human ∧
      initialGame.players.X.pending = true ∧
      initialGame.players.O.kind = PlayerKind.ai ∧
      filledCount initialGame.board = 0 ∧
      isAIMove (setup st slug bot).1 = false :=
  ⟨rfl, rfl, rfl, rfl, rfl, rfl, rfl, by decide, rfl⟩

/-- C5 counterexample: the game state produced by `setup` — for the
concrete initial state and slug — holds the fixed default player template
(X human, i.e. not assigned per any config), its first turn does not
belong to the AI, and its board is all-empty (0 filled cells), never one
move deep as the claim asserts a fresh game can be. -/
theorem setup_board_always_empty :
    (setup initialState "s" (fun _ => 4)).1.game = some initialGame ∧
      initialGame.players.X.kind = PlayerKind.human ∧
      isAIMove (setup initialState "s" (fun _ => 4)).1 = false ∧
      filledCount initialGame.board = 0 :=
  ⟨rfl, rfl, rfl, by decide⟩

/-! ## Claim C6 — the AI fallback policy -/

theorem findIndex_eq_some (p : Cell → Bool) :
    ∀ (b : Board) (i : Nat), findIndex p b = some i →
      ∃ hlt : i < b.length, p (b.get ⟨i, hlt⟩) = true := by
  intro b
  induction b with
  | nil => intro i h; cases h
  | cons c rest ih =>
    intro i h
    unfold findIndex at h
    by_cases hc : p c
    · rw [if_pos hc] at h
      injection h with h
      subst h
      exact ⟨by simp, hc⟩
    · rw [if_neg hc] at h
      cases hfi : findIndex p rest with
      | none => rw [hfi] at h; cases h
      | some j =>
        rw [hfi] at h
        injection h with h
        obtain ⟨hlt, hp⟩ := ih j hfi
        subst h
        exact ⟨by simpa using hlt, hp⟩

/-- C6 amended: `makeAIPlay` substitutes the lowest-indexed empty cell
only when the collaborator *returns* an out-of-range or occupied
position; when the collaborator *fails* (throws), the error is caught
and no move is applied at all (`undefined` is returned).  In both shapes
nothing propagates to the caller as an error — `makeAIPlay` returns
`Option`, and the internal "no more moves available" error raised when
no empty cell exists for the fallback is caught by the same handler and
also resolves to `undefined`. -/
theorem makeAIPlay_fallback (g : MGame) (pos : Int) (fb : Nat) (now : Nat)
    (hop : g.oPlayer = "ai") (hturn : g.isXNext = false)
    (hwin : g.winner = none) (hlen : g.board.length = 9)
    (hbad : pos < 0 ∨ 8 < pos ∨ jsIndex g.board pos ≠ some none)
    (hfb : findIndex (fun c => c = none) g.board = some fb) :
    (∃ g', makeAIPlay (some g) (.move pos) now = some g' ∧
      g'.board = g.board.set fb (some Symb.O)) ∧
    makeAIPlay (some g) .failure now = none := by
  obtain ⟨hlt, hget⟩ := findIndex_eq_some _ g.board fb hfb
  have hget' : g.board.get ⟨fb, hlt⟩ = none := by simpa using hget
  have hguard1 : ¬(¬(g.oPlayer = "ai") ∨ g.isXNext = true) := by
    simp [hop, hturn]
  have hguard2 : ¬(g.winner.isSome = true) := by simp [hwin]
  constructor
  · have happly :
        applyMove (some g) ((fb : Int)) "ai" now =
          .ok (movedGame g ((fb : Int)) now) := by
      refine (applyMove_ok_iff g ((fb : Int)) "ai" now _).mpr ⟨?_, ?_, ?_, rfl⟩
      · unfold turnOK
        rw [hturn]
        simpa using hop
      · simp only [not_or, not_lt]
        constructor <;> omega
      · unfold jsIndex
        rw [dif_pos ⟨by simp, by simpa using hlt⟩]
        rw [← hget']
        rfl
    refine ⟨movedGame g ((fb : Int)) now, ?_, ?_⟩
    · simp only [makeAIPlay]
      rw [if_neg hguard1, if_neg hguard2, if_pos hbad, hfb]
      show caught (applyMove (some g) (fb : Int) "ai" now) = _
      rw [happly]
      rfl
    · show movedBoard g ((fb : Int)) = g.board.set fb (some Symb.O)
      unfold movedBoard
      rw [hturn]
      rfl
  · simp only [makeAIPlay]
    rw [if_neg hguard1, if_neg hguard2]

/-- A live AI game: O ("ai") to move, position 0 occupied, cells 1-8
empty, no winner. -/
def liveAIGame : MGame :=
  { id := "g", xPlayer := "p", oPlayer := "ai",
    board := [some .X, none, none, none, none, none, none, none, none],
    isXNext := false, winner := none, updatedAt := 0 }

/-- Witness for `makeAIPlay_fallback` at `liveAIGame` with the
collaborator returning the occupied position 0: the fallback (cell 1)
is applied, and a collaborator failure yields no move. -/
theorem makeAIPlay_fallback_w :
    (∃ g', makeAIPlay (some liveAIGame) (.move 0) 3 = some g' ∧
      g'.board = liveAIGame.board.set 1 (some Symb.O)) ∧
    makeAIPlay (some liveAIGame) .failure 3 = none :=
  makeAIPlay_fallback liveAIGame 0 1 3 rfl rfl rfl (by decide)
    (by right; right; decide) (by decide)

/-- C6 counterexample: `liveAIGame` has empty cells (the lowest-indexed
one is 1), yet when the AI move-decision collaborator *fails*,
`makeAIPlay` applies no move at all and returns `undefined` — the claim
says the coordinator substitutes the lowest-indexed empty cell on
failure as well. -/
theorem makeAIPlay_no_fallback_on_failure :
    makeAIPlay (some liveAIGame) AIOutcome.failure 0 = none ∧
      findIndex (fun c => c = none) liveAIGame.board = some 1 ∧
      liveAIGame.winner = none ∧ liveAIGame.oPlayer = "ai" ∧
      liveAIGame.isXNext = false :=
  ⟨rfl, by decide, rfl, rfl, rfl⟩

/-! ## Claim C7 — disconnect handling -/

/-- C7: what `GameManager.onClose` actually does.  The stored games pass
through untouched (the handler performs no storage operation), and the
complete list of recipients of the `player_disconnected` notification is
`[connId]` — the connection that is closing itself.  In particular no
*remaining* subscriber receives anything, contradicting the claim that
the remaining subscribers are notified; the game-state-untouched half of
the claim is confirmed by the first conjunct. -/
theorem onClose_notifies_only_closing_connection
    (store : GameStore) (connId : String) (connGameId : Option String) :
    (onClose store connId connGameId).1 = store ∧
      (onClose store connId connGameId).2.map Prod.fst = [connId] ∧
      (onClose store connId connGameId).2 =
        [(connId, "player_disconnected")] :=
  ⟨rfl, rfl, rfl⟩

/-! ## Claim C8 — deleteGame -/

/-- C8: `deleteGame` fails with `MissingSlug` exactly on the empty slug;
on success neither summary list retains an entry for the slug and the
directory row and live instance are gone; and a second call on the same
slug does not throw and returns the very same (already clean) lobby
state — removal from lists not containing the slug is a no-op. -/
theorem deleteGame_spec (lb : Lobby) (slug : String) :
    (deleteGame lb slug = .error .missingSlug ↔ slug = "") ∧
    (∀ lb', deleteGame lb slug = .ok lb' →
      (∀ g ∈ lb'.gamesSeekingPlayers, g.slug ≠ slug) ∧
      (∀ g ∈ lb'.gamesInProgress, g.slug ≠ slug) ∧
      slug ∉ lb'.directory ∧ slug ∉ lb'.liveGames ∧
      deleteGame lb' slug = .ok lb') := by
  constructor
  · unfold deleteGame
    by_cases h : slug = ""
    · simp [h]
    · simp [h]
  · intro lb' hok
    have hne : ¬(slug = "") := by
      intro h
      unfold deleteGame at hok
      rw [if_pos h] at hok
      cases hok
    unfold deleteGame at hok
    rw [if_neg hne] at hok
    injection hok with hok
    subst hok
    refine ⟨?_, ?_, ?_, ?_, ?_⟩
    · intro g hg
      simpa using (List.of_mem_filter hg)
    · intro g hg
      simpa using (List.of_mem_filter hg)
    · intro hmem
      simpa using (List.of_mem_filter hmem)
    · intro hmem
      simpa using (List.of_mem_filter hmem)
    · unfold deleteGame
      rw [if_neg hne]
      congr 1
      have hfilter : ∀ (l : List AgentState),
          (l.filter (fun g => g.slug ≠ slug)).filter (fun g => g.slug ≠ slug) =
            l.filter (fun g => g.slug ≠ slug) := by
        intro l
        rw [List.filter_filter]
        simp
      have hfilterS : ∀ (l : List String),
          (l.filter (fun s => s ≠ slug)).filter (fun s => s ≠ slug) =
            l.filter (fun s => s ≠ slug) := by
        intro l
        rw [List.filter_filter]
        simp
      show Lobby.mk _ _ _ _ = Lobby.mk _ _ _ _
      rw [hfilter, hfilter, hfilterS, hfilterS]

/-- A concrete lobby holding one game record for slug "s" everywhere. -/
def lobby0 : Lobby :=
  { gamesSeekingPlayers := [freshHumanState],
    gamesInProgress := [finishedAgentState],
    directory := ["s"], liveGames := ["s"] }

/-- The lobby after deleting "s" from `lobby0`. -/
def lobby1 : Lobby :=
  { gamesSeekingPlayers := [],
    gamesInProgress := [],
    directory := [], liveGames := [] }

/-- Witness for `deleteGame_spec`: deleting slug "s" from `lobby0`
(whose entries all carry slug "s") empties everything, and the second
delete is accepted and is a no-op. -/
theorem deleteGame_spec_w :
    "s" ∉ lobby1.directory ∧ "s" ∉ lobby1.liveGames ∧
      deleteGame lobby1 "s" = .ok lobby1 := by
  have h := (deleteGame_spec lobby0 "s").2 lobby1 (by rfl)
  exact ⟨h.2.2.1, h.2.2.2.1, h.2.2.2.2⟩

/-! ## Claim C9 — the lobby-surface makeMove has no turn enforcement -/

/-- C9: `GameApi.makeMove` accepts every move whose target cell is empty
(`board[position] === null` is its only board check), places the
caller-supplied `playerSymbol` there with no comparison against
`currentTurn` — `playerSymbol` is unconstrained below — and the resulting
game's `currentTurn` equals the original one: the field is never updated
on this path (also not by the automatic AI follow-up move).  The
operation takes no caller identity at all, so there is nothing to
verify it against: turn enforcement is absent at this surface. -/
theorem makeMove_no_turn_enforcement (st : AgentState) (game : LGame)
    (pos : Int) (playerSymbol : Symb) (bot : Board → Int) (now : Nat)
    (hgame : st.game = some game)
    (hempty : jsIndex game.board pos = some none) :
    ∃ st' game', makeMove st pos playerSymbol bot now = .ok st' ∧
      st'.game = some game' ∧
      game'.currentTurn = game.currentTurn ∧
      game'.players = game.players ∧
      ((game.players.get (flipSym playerSymbol)).kind = PlayerKind.human →
        game'.board = game.board.set pos.toNat (some playerSymbol)) := by
  obtain ⟨sl, wf, ip, ca, ua, og⟩ := st
  simp only at hgame
  subst hgame
  simp only [makeMove]
  rw [if_neg (by rw [hempty]; simp)]
  by_cases hai :
      (game.players.get (flipSym playerSymbol)).kind = PlayerKind.ai ∧
        calculateWinner (game.board.set pos.toNat (some playerSymbol)) = none
  · rw [if_pos hai]
    rw [makeAIMove_kind_ai _ _ _ bot rfl (by exact hai.1)]
    refine ⟨_, _, rfl, rfl, rfl, rfl, ?_⟩
    intro hk
    rw [hai.1] at hk
    cases hk
  · rw [if_neg hai]
    exact ⟨_, _, rfl, rfl, rfl, rfl, fun _ => rfl⟩

/-- Witness for `makeMove_no_turn_enforcement`, with a symbol that does
NOT own the turn: in `freshHumanState` it is X's turn, yet a move by O at
position 0 is accepted, O is placed, and `currentTurn` still reads `X`. -/
theorem makeMove_no_turn_enforcement_w :
    ∃ st' game',
      makeMove freshHumanState 0 Symb.O (fun _ => 0) 5 = .ok st' ∧
        st'.game = some game' ∧
        game'.currentTurn = Symb.X ∧
        game'.players = freshHumanPlayers ∧
        ((freshHumanPlayers.get (flipSym Symb.O)).kind = PlayerKind.human →
          game'.board = initBoard.set 0 (some Symb.O)) :=
  makeMove_no_turn_enforcement freshHumanState
    { players := freshHumanPlayers, currentTurn := .X,
      board := initBoard, winner := none }
    0 Symb.O (fun _ => 0) 5 rfl (by decide)

end TicTacToe
